import Mathlib

/-!
Verification of the learn-opengl free-look camera demo.

The repository consists of `main.cpp` (window setup, render loop, input
callbacks, texture loading) plus a `Camera` class included from `camera.h`.
`main.cpp` is embedded directly below.  The `Camera` class itself is not part
of the available sources, so its operations are modelled from the design
specification (spec.md sections 3, 4 and 8): angle and position dynamics over
the exact rationals, the trigonometric basis update and the look-at
construction over the reals.
-/

/-- A 3-component vector with coordinates in `α` (models `glm::vec3`). -/
structure V3 (α : Type) where
  x : α
  y : α
  z : α
deriving DecidableEq, Repr

namespace V3

def add {α : Type} [Add α] (a b : V3 α) : V3 α := ⟨a.x + b.x, a.y + b.y, a.z + b.z⟩

def sub {α : Type} [Sub α] (a b : V3 α) : V3 α := ⟨a.x - b.x, a.y - b.y, a.z - b.z⟩

def smul {α : Type} [Mul α] (k : α) (a : V3 α) : V3 α := ⟨k * a.x, k * a.y, k * a.z⟩

/-- Dot product (models `glm::dot`). -/
def dot {α : Type} [Add α] [Mul α] (a b : V3 α) : α := a.x * b.x + a.y * b.y + a.z * b.z

/-- Cross product (models `glm::cross`). -/
def cross {α : Type} [Sub α] [Mul α] (a b : V3 α) : V3 α :=
  ⟨a.y * b.z - a.z * b.y, a.z * b.x - a.x * b.z, a.x * b.y - a.y * b.x⟩

instance {α : Type} [Add α] : Add (V3 α) := ⟨add⟩

instance {α : Type} [Sub α] : Sub (V3 α) := ⟨sub⟩

instance {α : Type} [Mul α] : SMul α (V3 α) := ⟨smul⟩

theorem add_def {α : Type} [Add α] (a b : V3 α) :
    a + b = ⟨a.x + b.x, a.y + b.y, a.z + b.z⟩ := rfl

theorem sub_def {α : Type} [Sub α] (a b : V3 α) :
    a - b = ⟨a.x - b.x, a.y - b.y, a.z - b.z⟩ := rfl

theorem smul_def {α : Type} [Mul α] (k : α) (a : V3 α) :
    k • a = ⟨k * a.x, k * a.y, k * a.z⟩ := rfl

end V3

/-- Modelled from the spec: the closed set of discrete movement intents of
`Camera` (`camera.h` is not among the available sources), spec section 4.1:
`direction ∈ {FORWARD, BACKWARD, LEFT, RIGHT, UP, DOWN}`. -/
inductive CameraMovement where
  | FORWARD
  | BACKWARD
  | LEFT
  | RIGHT
  | UP
  | DOWN
deriving DecidableEq, Repr

/-- Modelled from the spec: the `Camera` state of spec section 3 (`camera.h`
is not among the available sources).  Scalar and vector quantities are taken
exact (rationals); the derived basis vectors `front`/`right`/`up` are carried
as state fields, and their trigonometric recomputation is modelled separately
by `updateCameraVectors` over the reals. -/
structure Camera where
  position : V3 ℚ
  front : V3 ℚ
  up : V3 ℚ
  right : V3 ℚ
  worldUp : V3 ℚ
  yaw : ℚ
  pitch : ℚ
  movementSpeed : ℚ
  mouseSensitivity : ℚ
  zoom : ℚ
deriving DecidableEq, Repr

/-- Modelled from the spec: the camera constructed at startup in `main.cpp`
line 21, at position (0,0,3) with the defaults of spec sections 3 and 8
(yaw -90°, pitch 0°, worldUp (0,1,0), movementSpeed 2.5, mouseSensitivity 0.1,
zoom 45°); its initial basis (front (0,0,-1), right (1,0,0), up (0,1,0)) is
the exact value of the basis-update algorithm at yaw -90°, pitch 0°. -/
def defaultCamera : Camera where
  position := ⟨0, 0, 3⟩
  front := ⟨0, 0, -1⟩
  up := ⟨0, 1, 0⟩
  right := ⟨1, 0, 0⟩
  worldUp := ⟨0, 1, 0⟩
  yaw := -90
  pitch := 0
  movementSpeed := 5/2
  mouseSensitivity := 1/10
  zoom := 45

/-- Modelled from the spec: `ProcessKeyboard(direction, deltaTime)`
(spec section 4.1, `camera.h` is not among the available sources):
`position` is translated along `front` (FORWARD/BACKWARD, sign-flipped),
along `right` (RIGHT/LEFT, sign-flipped) or along `worldUp` (UP/DOWN,
sign-flipped), each scaled by `movementSpeed * deltaTime`; nothing else
changes and position is not clamped. -/
def processKeyboard (c : Camera) (direction : CameraMovement) (deltaTime : ℚ) : Camera :=
  let velocity := c.movementSpeed * deltaTime
  match direction with
  | .FORWARD => { c with position := c.position + velocity • c.front }
  | .BACKWARD => { c with position := c.position - velocity • c.front }
  | .RIGHT => { c with position := c.position + velocity • c.right }
  | .LEFT => { c with position := c.position - velocity • c.right }
  | .UP => { c with position := c.position + velocity • c.worldUp }
  | .DOWN => { c with position := c.position - velocity • c.worldUp }

/-- Modelled from the spec: the saturating pitch clamp of
`ProcessMouseMovement` (spec section 4.1, `camera.h` is not among the
available sources).  The spec gives the bounds as ±89° and its testable
property section says repeated upward movement drives `pitch` to its upper
bound (≈89°) and no further, so the clamp saturates at the bounds
themselves. -/
def clampPitch (p : ℚ) : ℚ :=
  if p > 89 then 89 else if p < -89 then -89 else p

/-- Modelled from the spec: the yaw/pitch update of
`ProcessMouseMovement(xoffset, yoffset, constrainPitch)` (spec section 4.1,
`camera.h` is not among the available sources):
`yaw += xoffset * mouseSensitivity`, `pitch += yoffset * mouseSensitivity`,
and if `constrainPitch` the pitch is clamped afterwards.  The synchronous
basis recomputation that follows is modelled separately by
`updateCameraVectors` over the reals. -/
def processMouseMovement (c : Camera) (xoffset yoffset : ℚ) (constrainPitch : Bool) : Camera :=
  let yaw := c.yaw + xoffset * c.mouseSensitivity
  let rawPitch := c.pitch + yoffset * c.mouseSensitivity
  let pitch := if constrainPitch then clampPitch rawPitch else rawPitch
  { c with yaw := yaw, pitch := pitch }

/-- Modelled from the spec: the zoom clamp of `ProcessMouseScroll`
(spec section 4.1, `camera.h` is not among the available sources): saturate
into [1°, 45°]. -/
def clampZoom (z : ℚ) : ℚ :=
  if z < 1 then 1 else if z > 45 then 45 else z

/-- Modelled from the spec: `ProcessMouseScroll(yoffset)` (spec section 4.1,
`camera.h` is not among the available sources): `zoom -= yoffset`, clamped
into [1°, 45°]; no effect on position or orientation. -/
def processMouseScroll (c : Camera) (yoffset : ℚ) : Camera :=
  { c with zoom := clampZoom (c.zoom - yoffset) }

/-- A sequence of constrained mouse-movement events applied in order. -/
def mouseMoves (c : Camera) (events : List (ℚ × ℚ)) : Camera :=
  events.foldl (fun s e => processMouseMovement s e.1 e.2 true) c

/-- Degrees to radians (models `glm::radians`). -/
noncomputable def radians (deg : ℝ) : ℝ := deg * (Real.pi / 180)

/-- Euclidean normalization of a real 3-vector (models `glm::normalize`):
divide each component by the vector's length. -/
noncomputable def V3.normalize (v : V3 ℝ) : V3 ℝ :=
  let n := Real.sqrt (V3.dot v v)
  ⟨v.x / n, v.y / n, v.z / n⟩

/-- Modelled from the spec: the basis-update algorithm of `Camera`
(spec section 4.1, `camera.h` is not among the available sources), run after
construction and after every yaw/pitch change:
`front = normalize (cos yaw * cos pitch, sin pitch, sin yaw * cos pitch)`
(angles converted to radians), then `right = normalize (front × worldUp)`,
then `up = normalize (right × front)`.  Returns `(front, right, up)`. -/
noncomputable def updateCameraVectors (yaw pitch : ℝ) (worldUp : V3 ℝ) :
    V3 ℝ × V3 ℝ × V3 ℝ :=
  let front := V3.normalize ⟨Real.cos (radians yaw) * Real.cos (radians pitch),
    Real.sin (radians pitch),
    Real.sin (radians yaw) * Real.cos (radians pitch)⟩
  let right := V3.normalize (V3.cross front worldUp)
  let up := V3.normalize (V3.cross right front)
  (front, right, up)

/-- A 4×4 real matrix given by rows (models `glm::mat4` up to the
column-major storage convention, which does not affect the matrix itself). -/
structure Mat4 where
  row0 : V3 ℝ × ℝ
  row1 : V3 ℝ × ℝ
  row2 : V3 ℝ × ℝ
  row3 : V3 ℝ × ℝ

/-- The standard right-handed look-at view transform (models `glm::lookAt`):
with `f = normalize (center - eye)`, `s = normalize (f × up)` and
`u = s × f`, the view matrix has rows `(s, -s·eye)`, `(u, -u·eye)`,
`(-f, f·eye)`, `(0, 1)`. -/
noncomputable def lookAt (eye center up : V3 ℝ) : Mat4 :=
  let f := V3.normalize (center - eye)
  let s := V3.normalize (V3.cross f up)
  let u := V3.cross s f
  { row0 := (s, -(V3.dot s eye))
    row1 := (u, -(V3.dot u eye))
    row2 := (⟨-f.x, -f.y, -f.z⟩, V3.dot f eye)
    row3 := (⟨0, 0, 0⟩, 1) }

/-- Coordinatewise embedding of an exact rational vector into the reals. -/
def V3.toReal (v : V3 ℚ) : V3 ℝ := ⟨(v.x : ℝ), (v.y : ℝ), (v.z : ℝ)⟩

/-- Modelled from the spec: `GetViewMatrix()` (spec section 4.1, `camera.h`
is not among the available sources): the look-at transform from `position`
toward `position + front` with `up` as the up reference, a pure function of
the camera state. -/
noncomputable def getViewMatrix (c : Camera) : Mat4 :=
  lookAt c.position.toReal (c.position.toReal + c.front.toReal) c.up.toReal

/-- Modelled from the spec: `GetViewMatrix()` as an explicit state-passing
operation, returning the view matrix together with the camera state after
the call (spec section 4.1: pure function of current state, no side
effects). -/
noncomputable def getViewMatrixS (c : Camera) : Mat4 × Camera :=
  (getViewMatrix c, c)

/-- The mouse-tracking globals of `main.cpp` lines 23-26: the cursor position
seen last frame (`lastX`/`lastY`) and the skip-first-sample flag
(`firstMouse`). -/
structure MouseState where
  lastX : ℚ
  lastY : ℚ
  firstMouse : Bool
deriving DecidableEq, Repr

/-- `mouse_callback` of `main.cpp` lines 456-473: if `firstMouse`, first set
`lastX`/`lastY` to the incoming position and clear the flag; compute
`xoffset = xpos - lastX` and `yoffset = lastY - ypos` (y reversed); store the
incoming position into `lastX`/`lastY`; the offsets are then passed to
`camera.ProcessMouseMovement`.  Returns the new globals and the offset
pair. -/
def mouse_callback (s : MouseState) (xpos ypos : ℚ) : MouseState × ℚ × ℚ :=
  let lastX := if s.firstMouse then xpos else s.lastX
  let lastY := if s.firstMouse then ypos else s.lastY
  let xoffset := xpos - lastX
  let yoffset := lastY - ypos
  (⟨xpos, ypos, false⟩, xoffset, yoffset)

/-- `scroll_callback` of `main.cpp` lines 476-478: forward the scroll's
y-delta to `camera.ProcessMouseScroll`. -/
def scroll_callback (c : Camera) (yoffset : ℚ) : Camera :=
  processMouseScroll c yoffset

/-- The degree arguments of the spot-light cone uniforms at one call site of
the render loop; the values uploaded are `cos(radians(...))` of these. -/
structure SpotAngles where
  cutOffDeg : ℚ
  outerCutOffDeg : ℚ
deriving DecidableEq, Repr

/-- The angles passed at `main.cpp` lines 323-324:
`light.cutOff = cos(radians(12.5))`, `light.outerCutOff = cos(radians(17.5))`. -/
def lightSpotAngles : SpotAngles := ⟨25/2, 35/2⟩

/-- The angles passed at `main.cpp` lines 335-336:
`spotLight.cutOff = cos(radians(12.5))`, `spotLight.outerCutOff = cos(radians(15.0))`. -/
def spotLightAngles : SpotAngles := ⟨25/2, 15⟩

/-- The value uploaded for a spot-light cone uniform given its angle in
degrees (`main.cpp` lines 323-324 and 335-336): the cosine of the angle. -/
noncomputable def spotUniformValue (deg : ℚ) : ℝ := Real.cos (radians (deg : ℝ))

/-- The message printed by `loadTexture` when `stbi_load` returns null
(`main.cpp` line 505). -/
def failMsgHead : String := "Failed to load texture: "

/-- The decoded image `stbi_load` hands back on success (`main.cpp`
line 498); the payload itself is irrelevant to the control flow. -/
structure ImageData where
  width : Int
  height : Int
  nrChannels : Int
deriving DecidableEq, Repr

/-- `loadTexture` of `main.cpp` lines 480-511, given the texture ID freshly
generated by `glGenTextures` and the result of `stbi_load` (`some` image data
or `none` on failure).  Returns the value returned to the caller, the lines
printed to the console, and whether image data was uploaded
(`glTexImage2D`/`glGenerateMipmap`).  On failure it only prints
`failMsgHead ++ path` and still returns the generated ID. -/
def loadTexture (textureID : Nat) (path : String) (data : Option ImageData) :
    Nat × List String × Bool :=
  match data with
  | some _ => (textureID, [], true)
  | none => (textureID, [failMsgHead ++ path], false)

/-- The fixed positions of the four point lights, `main.cpp` lines 144-149. -/
def pointLightPositions : List (V3 ℚ) :=
  [⟨7/10, 1/5, 2⟩, ⟨23/10, -33/10, -4⟩, ⟨-4, 2, -12⟩, ⟨0, 0, -3⟩]

/-- The per-frame update of the global `lightPos`, `main.cpp` lines 313-315:
`lightPos.x = sin(t) * 5`, `lightPos.z = cos(t) * 5` (y untouched). -/
noncomputable def updateLightPos (t : ℝ) (lightPos : V3 ℝ) : V3 ℝ :=
  ⟨Real.sin t * 5, lightPos.y, Real.cos t * 5⟩

/-- Uniform name constants of `main.cpp` (lines 260-290 and 319-336). -/
def uLightPosition : String := "light.position"

def uSpotLightPosition : String := "spotLight.position"

def uViewPos : String := "viewPos"

def uPointLightPosition (i : Nat) : String :=
  "pointLights[" ++ toString i ++ "].position"

/-- Every position uniform the program uploads, as a function of the camera
position and of the global `lightPos`: `viewPos`, `light.position` and
`spotLight.position` are set from `camera.Position` each frame (`main.cpp`
lines 319, 321, 327; the `lightPos` variant on line 320 is commented out),
and `pointLights[i].position` is set once before the loop from the fixed
`pointLightPositions` array (lines 260, 268, 276, 284).  `lightPos` is taken
as an argument to express that none of the values depend on it. -/
def positionUniforms (camPos : V3 ℚ) (lightPos : V3 ℚ) : List (String × V3 ℚ) :=
  [(uViewPos, camPos), (uLightPosition, camPos), (uSpotLightPosition, camPos)] ++
    (List.range 4).map (fun i => (uPointLightPosition i, pointLightPositions.getD i ⟨0, 0, 0⟩))

/-- The data defining the model matrix of lamp `i` in `main.cpp`
lines 406-412: a translation by `pointLightPositions[i]` followed by a
uniform scale by 0.2.  `lightPos` is taken as an argument to express that
the lamp transforms do not depend on it. -/
def lampModels (lightPos : V3 ℚ) : List (V3 ℚ × ℚ) :=
  pointLightPositions.map (fun p => (p, 1/5))

/-! ## Helper lemmas -/

theorem clampPitch_mem (p : ℚ) : -89 ≤ clampPitch p ∧ clampPitch p ≤ 89 := by
  unfold clampPitch
  split_ifs with h1 h2 <;> constructor <;> linarith

theorem processMouseMovement_pitch (c : Camera) (dx dy : ℚ) :
    (processMouseMovement c dx dy true).pitch =
      clampPitch (c.pitch + dy * c.mouseSensitivity) := rfl

theorem processMouseMovement_sensitivity (c : Camera) (dx dy : ℚ) (b : Bool) :
    (processMouseMovement c dx dy b).mouseSensitivity = c.mouseSensitivity := rfl

theorem mouseMoves_cons (c : Camera) (e : ℚ × ℚ) (l : List (ℚ × ℚ)) :
    mouseMoves c (e :: l) = mouseMoves (processMouseMovement c e.1 e.2 true) l := rfl

theorem mouseMoves_pitch_bounds (events : List (ℚ × ℚ)) :
    ∀ c : Camera, -89 ≤ c.pitch → c.pitch ≤ 89 →
      -89 ≤ (mouseMoves c events).pitch ∧ (mouseMoves c events).pitch ≤ 89 := by
  induction events with
  | nil => exact fun c h1 h2 => ⟨h1, h2⟩
  | cons e l ih =>
    intro c h1 h2
    rw [mouseMoves_cons]
    exact ih _ (clampPitch_mem _).1 (clampPitch_mem _).2

theorem mouseMoves_saturated (k : ℕ) :
    ∀ c : Camera, c.pitch = 89 → c.mouseSensitivity = 1/10 →
      (mouseMoves c (List.replicate k (0, 1000000))).pitch = 89 := by
  induction k with
  | zero => exact fun c h _ => h
  | succ n ih =>
    intro c h hs
    rw [List.replicate_succ, mouseMoves_cons]
    refine ih _ ?_ (by rw [processMouseMovement_sensitivity]; exact hs)
    rw [processMouseMovement_pitch, h, hs]
    norm_num [clampPitch]

theorem V3.normalize_sq (v : V3 ℝ) (n : ℝ) (hn : 0 < n) (h : V3.dot v v = n ^ 2) :
    V3.normalize v = ⟨v.x / n, v.y / n, v.z / n⟩ := by
  simp only [V3.normalize, h, Real.sqrt_sq hn.le]

theorem cos_radians_pos (pitch : ℝ) (h1 : -89 ≤ pitch) (h2 : pitch ≤ 89) :
    0 < Real.cos (radians pitch) := by
  have hpi := Real.pi_pos
  apply Real.cos_pos_of_mem_Ioo
  constructor
  · show -(Real.pi / 2) < radians pitch
    unfold radians
    nlinarith
  · show radians pitch < Real.pi / 2
    unfold radians
    nlinarith

theorem updateCameraVectors_closed (yaw pitch : ℝ) (hc : 0 < Real.cos (radians pitch)) :
    updateCameraVectors yaw pitch ⟨0, 1, 0⟩ =
      (⟨Real.cos (radians yaw) * Real.cos (radians pitch), Real.sin (radians pitch),
          Real.sin (radians yaw) * Real.cos (radians pitch)⟩,
        ⟨-Real.sin (radians yaw), 0, Real.cos (radians yaw)⟩,
        ⟨-(Real.cos (radians yaw) * Real.sin (radians pitch)), Real.cos (radians pitch),
          -(Real.sin (radians yaw) * Real.sin (radians pitch))⟩) := by
  set ry := radians yaw with hry
  set rp := radians pitch with hrp
  have pyth_y := Real.sin_sq_add_cos_sq ry
  have pyth_p := Real.sin_sq_add_cos_sq rp
  set F : V3 ℝ := ⟨Real.cos ry * Real.cos rp, Real.sin rp, Real.sin ry * Real.cos rp⟩ with hF
  have hFunit : V3.dot F F = 1 ^ 2 := by
    simp only [hF, V3.dot]
    linear_combination (Real.cos rp ^ 2) * pyth_y + pyth_p
  have hnormF : V3.normalize F = F := by
    rw [V3.normalize_sq F 1 one_pos hFunit]
    simp
  have hcross1 : V3.cross F ⟨0, 1, 0⟩ =
      ⟨-(Real.sin ry * Real.cos rp), 0, Real.cos ry * Real.cos rp⟩ := by
    simp only [hF, V3.cross, V3.mk.injEq]
    refine ⟨by ring, by ring, by ring⟩
  have hcrossUnit : V3.dot (V3.cross F ⟨0, 1, 0⟩) (V3.cross F ⟨0, 1, 0⟩) =
      Real.cos rp ^ 2 := by
    rw [hcross1]
    simp only [V3.dot]
    linear_combination (Real.cos rp ^ 2) * pyth_y
  have hnormR : V3.normalize (V3.cross F ⟨0, 1, 0⟩) =
      ⟨-Real.sin ry, 0, Real.cos ry⟩ := by
    rw [V3.normalize_sq _ (Real.cos rp) hc (by rw [hcrossUnit]), hcross1]
    simp only [V3.mk.injEq]
    refine ⟨by field_simp, by field_simp, by field_simp⟩
  set R : V3 ℝ := ⟨-Real.sin ry, 0, Real.cos ry⟩ with hR
  have hcross2 : V3.cross R F =
      ⟨-(Real.cos ry * Real.sin rp), Real.cos rp, -(Real.sin ry * Real.sin rp)⟩ := by
    simp only [hR, hF, V3.cross, V3.mk.injEq]
    refine ⟨by ring, by linear_combination Real.cos rp * pyth_y, by ring⟩
  have hcross2Unit : V3.dot (V3.cross R F) (V3.cross R F) = 1 ^ 2 := by
    rw [hcross2]
    simp only [V3.dot]
    linear_combination (Real.sin rp ^ 2) * pyth_y + pyth_p
  have hnormU : V3.normalize (V3.cross R F) =
      ⟨-(Real.cos ry * Real.sin rp), Real.cos rp, -(Real.sin ry * Real.sin rp)⟩ := by
    rw [V3.normalize_sq _ 1 one_pos hcross2Unit, hcross2]
    simp
  simp only [updateCameraVectors]
  rw [← hry, ← hrp, ← hF]
  rw [hnormF, hnormR, hnormU]

/-! ## Claim theorems -/

/-- C1 (counterexample): the pitch does not stay strictly inside the open
interval (-89°, 89°): a single constrained `ProcessMouseMovement(0, 1e6)`
from the default camera drives `pitch` to exactly 89°, which is not
strictly below 89°. -/
theorem c1_pitch_reaches_89 :
    (processMouseMovement defaultCamera 0 1000000 true).pitch = 89 ∧
      ¬ (processMouseMovement defaultCamera 0 1000000 true).pitch < 89 := by
  constructor
  · rw [processMouseMovement_pitch]
    norm_num [defaultCamera, clampPitch]
  · rw [processMouseMovement_pitch]
    norm_num [defaultCamera, clampPitch]

/-- C1 (amended): under any sequence of `ProcessMouseMovement` calls with
`constrainPitch = true`, starting from a pitch in [-89°, 89°], the pitch
stays inside the closed interval [-89°, 89°] — in particular it never
reaches or exceeds 90° — and repeatedly calling
`ProcessMouseMovement(0, +1e6, true)` from the default camera drives the
pitch to its upper bound, exactly 89°, and no further. -/
theorem c1_pitch_clamped :
    (∀ (c : Camera) (events : List (ℚ × ℚ)), -89 ≤ c.pitch → c.pitch ≤ 89 →
        -89 ≤ (mouseMoves c events).pitch ∧ (mouseMoves c events).pitch ≤ 89 ∧
          (mouseMoves c events).pitch < 90) ∧
      ∀ n : ℕ, 1 ≤ n →
        (mouseMoves defaultCamera (List.replicate n (0, 1000000))).pitch = 89 := by
  constructor
  · intro c events h1 h2
    obtain ⟨hl, hu⟩ := mouseMoves_pitch_bounds events c h1 h2
    exact ⟨hl, hu, by linarith⟩
  · intro n hn
    obtain ⟨k, rfl⟩ := Nat.exists_eq_add_of_le hn
    rw [List.replicate_add, List.replicate_one, List.cons_append, List.nil_append,
      mouseMoves_cons]
    refine mouseMoves_saturated k _ ?_ rfl
    rw [processMouseMovement_pitch]
    norm_num [defaultCamera, clampPitch]

/-- C1 witness for `c1_pitch_clamped`. -/
theorem c1_pitch_clamped_witness :
    (-89 ≤ (mouseMoves defaultCamera []).pitch ∧ (mouseMoves defaultCamera []).pitch ≤ 89 ∧
        (mouseMoves defaultCamera []).pitch < 90) ∧
      (mouseMoves defaultCamera (List.replicate 1 (0, 1000000))).pitch = 89 :=
  ⟨c1_pitch_clamped.1 defaultCamera [] (by norm_num [defaultCamera])
      (by norm_num [defaultCamera]),
    c1_pitch_clamped.2 1 (by norm_num)⟩

/-- C2: `ProcessMouseScroll(yoffset)` sets `zoom` to `zoom - yoffset`
saturated into [1°, 45°] and changes nothing else; from the default camera,
`ProcessMouseScroll(-1000)` leaves `zoom` at 45° and a following
`ProcessMouseScroll(+1000)` leaves it at 1°. -/
theorem c2_processMouseScroll_clamps_zoom :
    (∀ (c : Camera) (yoffset : ℚ),
        (processMouseScroll c yoffset).zoom = max 1 (min 45 (c.zoom - yoffset)) ∧
          (processMouseScroll c yoffset).position = c.position ∧
          (processMouseScroll c yoffset).yaw = c.yaw ∧
          (processMouseScroll c yoffset).pitch = c.pitch ∧
          (processMouseScroll c yoffset).front = c.front ∧
          (processMouseScroll c yoffset).right = c.right ∧
          (processMouseScroll c yoffset).up = c.up) ∧
      (processMouseScroll defaultCamera (-1000)).zoom = 45 ∧
      (processMouseScroll (processMouseScroll defaultCamera (-1000)) 1000).zoom = 1 := by
  refine ⟨fun c yoffset => ⟨?_, rfl, rfl, rfl, rfl, rfl, rfl⟩, ?_, ?_⟩
  · show clampZoom (c.zoom - yoffset) = _
    unfold clampZoom
    split_ifs with h1 h2
    · rw [min_eq_right (by linarith), max_eq_left (by linarith)]
    · rw [min_eq_left (by linarith), max_eq_right (by norm_num)]
    · rw [min_eq_right (by linarith), max_eq_right (by linarith)]
  · show clampZoom _ = 45
    norm_num [defaultCamera, clampZoom]
  · show clampZoom _ = 1
    norm_num [defaultCamera, processMouseScroll, clampZoom]

/-- C3: `ProcessKeyboard(direction, deltaTime)` translates `position` by
`movementSpeed * deltaTime` along `front` (FORWARD/BACKWARD, sign-flipped),
`right` (RIGHT/LEFT, sign-flipped) or `worldUp` (UP/DOWN, sign-flipped),
touches no other field, and composes additively: from the default camera
(front (0,0,-1), right (1,0,0), movementSpeed 2.5), FORWARD for 1s then
RIGHT for 1s displaces the position by (2.5, 0, -2.5). -/
theorem c3_processKeyboard_translates (c : Camera) (deltaTime : ℚ)
    (hdt : 0 ≤ deltaTime) :
    (processKeyboard c .FORWARD deltaTime).position =
        c.position + (c.movementSpeed * deltaTime) • c.front ∧
      (processKeyboard c .BACKWARD deltaTime).position =
        c.position - (c.movementSpeed * deltaTime) • c.front ∧
      (processKeyboard c .RIGHT deltaTime).position =
        c.position + (c.movementSpeed * deltaTime) • c.right ∧
      (processKeyboard c .LEFT deltaTime).position =
        c.position - (c.movementSpeed * deltaTime) • c.right ∧
      (processKeyboard c .UP deltaTime).position =
        c.position + (c.movementSpeed * deltaTime) • c.worldUp ∧
      (processKeyboard c .DOWN deltaTime).position =
        c.position - (c.movementSpeed * deltaTime) • c.worldUp ∧
      (∀ d : CameraMovement,
        (processKeyboard c d deltaTime).yaw = c.yaw ∧
          (processKeyboard c d deltaTime).pitch = c.pitch ∧
          (processKeyboard c d deltaTime).front = c.front ∧
          (processKeyboard c d deltaTime).zoom = c.zoom) ∧
      (processKeyboard (processKeyboard defaultCamera .FORWARD 1) .RIGHT 1).position =
        defaultCamera.position + (⟨5/2, 0, -5/2⟩ : V3 ℚ) := by
  refine ⟨rfl, rfl, rfl, rfl, rfl, rfl, fun d => ?_, ?_⟩
  · cases d <;> exact ⟨rfl, rfl, rfl, rfl⟩
  · simp only [processKeyboard, defaultCamera]
    norm_num [V3.add_def, V3.smul_def]

/-- C3 witness for `c3_processKeyboard_translates`. -/
theorem c3_processKeyboard_translates_witness :
    (processKeyboard defaultCamera .FORWARD 1).position =
      defaultCamera.position + (defaultCamera.movementSpeed * 1) • defaultCamera.front :=
  (c3_processKeyboard_translates defaultCamera 1 (by norm_num)).1

/-- C6: with `constrainPitch = false`, mouse movements by `(dx, dy)` and then
`(-dx, -dy)` return `yaw` and `pitch` to their original values (exactly, in
the exact-arithmetic model). -/
theorem c6_mouse_movement_inverse (c : Camera) (dx dy : ℚ) :
    (processMouseMovement (processMouseMovement c dx dy false) (-dx) (-dy) false).yaw =
        c.yaw ∧
      (processMouseMovement (processMouseMovement c dx dy false) (-dx) (-dy) false).pitch =
        c.pitch := by
  constructor <;> simp [processMouseMovement]

/-- C7: the two render-loop call sites configure the spot-light cone
differently: `main.cpp` lines 323-324 use cutOff 12.5° with outerCutOff
17.5°, lines 335-336 use cutOff 12.5° with outerCutOff 15.0°; the uploaded
cosines of the two outer angles differ as well. -/
theorem c7_spot_cone_call_sites_differ :
    lightSpotAngles.cutOffDeg = 25/2 ∧ lightSpotAngles.outerCutOffDeg = 35/2 ∧
      spotLightAngles.cutOffDeg = 25/2 ∧ spotLightAngles.outerCutOffDeg = 15 ∧
      lightSpotAngles.cutOffDeg = spotLightAngles.cutOffDeg ∧
      lightSpotAngles.outerCutOffDeg ≠ spotLightAngles.outerCutOffDeg ∧
      spotUniformValue lightSpotAngles.outerCutOffDeg ≠
        spotUniformValue spotLightAngles.outerCutOffDeg := by
  refine ⟨rfl, rfl, rfl, rfl, rfl, by norm_num [lightSpotAngles, spotLightAngles], ?_⟩
  have hpi := Real.pi_pos
  have hcast : ((35/2 : ℚ) : ℝ) = 35/2 := by norm_num
  have hcast2 : ((15 : ℚ) : ℝ) = 15 := by norm_num
  simp only [spotUniformValue, lightSpotAngles, spotLightAngles, radians, hcast, hcast2]
  have hlt : Real.cos ((35/2 : ℝ) * (Real.pi / 180)) <
      Real.cos ((15 : ℝ) * (Real.pi / 180)) := by
    apply Real.cos_lt_cos_of_nonneg_of_le_pi
    · positivity
    · nlinarith
    · nlinarith
  exact ne_of_lt hlt

/-- C8: on the first `mouse_callback` invocation after startup
(`firstMouse = true`) the offsets handed to `ProcessMouseMovement` are
exactly (0, 0), which leaves a camera whose pitch is in the clamped range
unchanged; every invocation stores the incoming cursor position into
`lastX`/`lastY` and leaves `firstMouse` false. -/
theorem c8_first_mouse_sample (s : MouseState) (xpos ypos : ℚ) (c : Camera) :
    ((mouse_callback s xpos ypos).1.lastX = xpos ∧
        (mouse_callback s xpos ypos).1.lastY = ypos ∧
        (mouse_callback s xpos ypos).1.firstMouse = false) ∧
      (s.firstMouse = true →
        (mouse_callback s xpos ypos).2.1 = 0 ∧ (mouse_callback s xpos ypos).2.2 = 0 ∧
          (-89 ≤ c.pitch → c.pitch ≤ 89 →
            processMouseMovement c (mouse_callback s xpos ypos).2.1
              (mouse_callback s xpos ypos).2.2 true = c)) := by
  refine ⟨⟨rfl, rfl, rfl⟩, fun hf => ?_⟩
  have h1 : (mouse_callback s xpos ypos).2.1 = 0 := by simp [mouse_callback, hf]
  have h2 : (mouse_callback s xpos ypos).2.2 = 0 := by simp [mouse_callback, hf]
  refine ⟨h1, h2, fun hp1 hp2 => ?_⟩
  rw [h1, h2]
  rcases c with ⟨pos, fr, up, ri, wu, yaw, pitch, ms, sens, zoom⟩
  simp only [processMouseMovement, Camera.mk.injEq]
  simp only [zero_mul, add_zero, if_true]
  unfold clampPitch
  rw [if_neg (by simp at hp2 ⊢; linarith), if_neg (by simp at hp1 ⊢; linarith)]
  simp

/-- C8 witness for `c8_first_mouse_sample`. -/
theorem c8_first_mouse_sample_witness :
    processMouseMovement defaultCamera (mouse_callback ⟨400, 300, true⟩ 5 7).2.1
      (mouse_callback ⟨400, 300, true⟩ 5 7).2.2 true = defaultCamera :=
  ((c8_first_mouse_sample ⟨400, 300, true⟩ 5 7 defaultCamera).2 rfl).2.2
    (by norm_num [defaultCamera]) (by norm_num [defaultCamera])

/-- C9: when `stbi_load` fails, `loadTexture` prints exactly one console
line, the failure message followed by the path, and still returns the
freshly generated texture ID without uploading any image data; on success
it returns the same generated ID after uploading, printing nothing.  In
both cases the only value returned to the caller is the texture ID. -/
theorem c9_loadTexture_failure_path (textureID : Nat) (path : String) :
    (loadTexture textureID path none).1 = textureID ∧
      (loadTexture textureID path none).2.1 = [failMsgHead ++ path] ∧
      (loadTexture textureID path none).2.2 = false ∧
      ∀ img : ImageData,
        (loadTexture textureID path (some img)).1 = textureID ∧
          (loadTexture textureID path (some img)).2.1 = [] ∧
          (loadTexture textureID path (some img)).2.2 = true :=
  ⟨rfl, rfl, rfl, fun _ => ⟨rfl, rfl, rfl⟩⟩

/-- C10: the per-frame circular update of the global `lightPos` (which does
move it on the radius-5 circle) has no effect on any value sent to the
shaders: the position uniforms and lamp model transforms are the same for
any two values of `lightPos`, being built only from the camera position and
the fixed `pointLightPositions` array. -/
theorem c10_lightPos_has_no_frame_effect :
    (∀ camPos lp lp' : V3 ℚ,
        positionUniforms camPos lp = positionUniforms camPos lp' ∧
          lampModels lp = lampModels lp') ∧
      (∀ camPos lp : V3 ℚ,
        positionUniforms camPos lp =
          [(uViewPos, camPos), (uLightPosition, camPos), (uSpotLightPosition, camPos),
            (uPointLightPosition 0, ⟨7/10, 1/5, 2⟩),
            (uPointLightPosition 1, ⟨23/10, -33/10, -4⟩),
            (uPointLightPosition 2, ⟨-4, 2, -12⟩),
            (uPointLightPosition 3, ⟨0, 0, -3⟩)]) ∧
      ∀ (t : ℝ) (lp : V3 ℝ),
        (updateLightPos t lp).x ^ 2 + (updateLightPos t lp).z ^ 2 = 25 := by
  refine ⟨fun camPos lp lp' => ⟨rfl, rfl⟩, fun camPos lp => rfl, fun t lp => ?_⟩
  have h := Real.sin_sq_add_cos_sq t
  simp only [updateLightPos]
  nlinarith [h]

/-- C4: `GetViewMatrix` is a pure read of the camera state: as a
state-passing operation it leaves the state unchanged, so two consecutive
calls with no intervening mutation return identical matrices; the matrix
returned is the look-at transform built from `position`,
`position + front` and `up` — concretely, for the default camera at (0,0,3)
looking toward (0,0,2) with up (0,1,0) it is the translation by -3 along
z. -/
theorem c4_getViewMatrix_pure (c : Camera) :
    getViewMatrix c =
        lookAt c.position.toReal (c.position.toReal + c.front.toReal) c.up.toReal ∧
      (getViewMatrixS c).2 = c ∧
      (getViewMatrixS (getViewMatrixS c).2).1 = (getViewMatrixS c).1 ∧
      getViewMatrix defaultCamera =
        { row0 := (⟨1, 0, 0⟩, 0), row1 := (⟨0, 1, 0⟩, 0),
          row2 := (⟨0, 0, 1⟩, -3), row3 := (⟨0, 0, 0⟩, 1) } := by
  refine ⟨rfl, rfl, rfl, ?_⟩
  have hsum : defaultCamera.position.toReal + defaultCamera.front.toReal =
      (⟨0, 0, 2⟩ : V3 ℝ) := by
    show V3.add _ _ = _
    simp only [defaultCamera, V3.toReal, V3.add, V3.mk.injEq]
    norm_num
  have hpos : defaultCamera.position.toReal = (⟨0, 0, 3⟩ : V3 ℝ) := by
    simp only [defaultCamera, V3.toReal, V3.mk.injEq]
    norm_num
  have hup : defaultCamera.up.toReal = (⟨0, 1, 0⟩ : V3 ℝ) := by
    simp only [defaultCamera, V3.toReal, V3.mk.injEq]
    norm_num
  show lookAt _ _ _ = _
  rw [hsum, hpos, hup]
  have hsub : (⟨0, 0, 2⟩ : V3 ℝ) - ⟨0, 0, 3⟩ = ⟨0, 0, -1⟩ := by
    show V3.sub _ _ = _
    simp only [V3.sub, V3.mk.injEq]
    norm_num
  have h1 : V3.normalize ⟨(0 : ℝ), 0, -1⟩ = ⟨0, 0, -1⟩ := by
    rw [V3.normalize_sq _ 1 one_pos (by simp [V3.dot])]
    norm_num
  have hcr : V3.cross ⟨(0 : ℝ), 0, -1⟩ ⟨0, 1, 0⟩ = ⟨1, 0, 0⟩ := by
    simp only [V3.cross, V3.mk.injEq]
    norm_num
  have h2 : V3.normalize ⟨(1 : ℝ), 0, 0⟩ = ⟨1, 0, 0⟩ := by
    rw [V3.normalize_sq _ 1 one_pos (by simp [V3.dot])]
    norm_num
  simp only [lookAt, hsub, h1, hcr, h2]
  simp only [V3.cross, V3.dot, Mat4.mk.injEq, Prod.mk.injEq, V3.mk.injEq]
  norm_num

/-- C5: for every yaw and every pitch in the clamped range [-89°, 89°], the
basis rebuilt in the order front → right → up from yaw, pitch and
worldUp = (0,1,0) is orthonormal: each of the three vectors has unit length
(squared norm exactly 1 in the real-number model) and the three pairwise
dot products are exactly 0. -/
theorem c5_camera_basis_orthonormal (yaw pitch : ℝ) (h1 : -89 ≤ pitch)
    (h2 : pitch ≤ 89) :
    V3.dot (updateCameraVectors yaw pitch ⟨0, 1, 0⟩).1
        (updateCameraVectors yaw pitch ⟨0, 1, 0⟩).1 = 1 ∧
      V3.dot (updateCameraVectors yaw pitch ⟨0, 1, 0⟩).2.1
        (updateCameraVectors yaw pitch ⟨0, 1, 0⟩).2.1 = 1 ∧
      V3.dot (updateCameraVectors yaw pitch ⟨0, 1, 0⟩).2.2
        (updateCameraVectors yaw pitch ⟨0, 1, 0⟩).2.2 = 1 ∧
      V3.dot (updateCameraVectors yaw pitch ⟨0, 1, 0⟩).1
        (updateCameraVectors yaw pitch ⟨0, 1, 0⟩).2.1 = 0 ∧
      V3.dot (updateCameraVectors yaw pitch ⟨0, 1, 0⟩).1
        (updateCameraVectors yaw pitch ⟨0, 1, 0⟩).2.2 = 0 ∧
      V3.dot (updateCameraVectors yaw pitch ⟨0, 1, 0⟩).2.1
        (updateCameraVectors yaw pitch ⟨0, 1, 0⟩).2.2 = 0 := by
  have hc := cos_radians_pos pitch h1 h2
  rw [updateCameraVectors_closed yaw pitch hc]
  have pyth_y := Real.sin_sq_add_cos_sq (radians yaw)
  have pyth_p := Real.sin_sq_add_cos_sq (radians pitch)
  simp only [V3.dot]
  refine ⟨?_, ?_, ?_, ?_, ?_, ?_⟩
  · linear_combination (Real.cos (radians pitch) ^ 2) * pyth_y + pyth_p
  · linear_combination pyth_y
  · linear_combination (Real.sin (radians pitch) ^ 2) * pyth_y + pyth_p
  · ring
  · linear_combination (-(Real.cos (radians pitch) * Real.sin (radians pitch))) * pyth_y
  · ring

/-- C5 witness for `c5_camera_basis_orthonormal`. -/
theorem c5_camera_basis_orthonormal_witness :
    V3.dot (updateCameraVectors 0 0 ⟨0, 1, 0⟩).1
        (updateCameraVectors 0 0 ⟨0, 1, 0⟩).1 = 1 ∧
      V3.dot (updateCameraVectors 0 0 ⟨0, 1, 0⟩).2.1
        (updateCameraVectors 0 0 ⟨0, 1, 0⟩).2.1 = 1 ∧
      V3.dot (updateCameraVectors 0 0 ⟨0, 1, 0⟩).2.2
        (updateCameraVectors 0 0 ⟨0, 1, 0⟩).2.2 = 1 ∧
      V3.dot (updateCameraVectors 0 0 ⟨0, 1, 0⟩).1
        (updateCameraVectors 0 0 ⟨0, 1, 0⟩).2.1 = 0 ∧
      V3.dot (updateCameraVectors 0 0 ⟨0, 1, 0⟩).1
        (updateCameraVectors 0 0 ⟨0, 1, 0⟩).2.2 = 0 ∧
      V3.dot (updateCameraVectors 0 0 ⟨0, 1, 0⟩).2.1
        (updateCameraVectors 0 0 ⟨0, 1, 0⟩).2.2 = 0 :=
  c5_camera_basis_orthonormal 0 0 (by norm_num) (by norm_num)
